import Mathlib

/-!
# Verification of the DocFill template-filling engine

Shallow embedding of `src/modules/template_filler.py`: the placeholder
matcher (`fill_paragraph`'s five regex substitutions, including the
semantics of Python's `re.sub` replacement templates), the table filler
(`fill_table`) and the document traversal (`fill_template`,
`fill_template_smart`).

Modelling notes.
* Strings are `String` / `List Char`.  Case-insensitive matching
  (`re.IGNORECASE`) and whitespace (`\s`, `str.strip`) are modelled on
  the ASCII fragment, which covers every literal in the repository.
* The five patterns built in `fill_paragraph` apply `re.escape` to the
  field name, so the name is matched literally; the matchers below
  scan for the literal name directly.
* Python's `re.sub` parses the replacement template eagerly; a bad
  escape or an out-of-range group reference raises `re.error` (caught
  by the `except re.error: continue` in `fill_paragraph`), while an
  unknown *named* group reference `\g<name>` raises `IndexError`,
  which that handler does not catch.  Errors are therefore modelled by
  `Except TErr` with the two error kinds kept apart.
* Mutation of the docx tree is modelled by state passing; python-docx
  derived accessors (`paragraph.text`, `cell.text`) and setters
  (assigning `paragraph.text` replaces the runs by a single fresh run)
  are modelled from the library's documented behaviour.
-/

namespace DocFill

abbrev Chars := List Char

/-- ASCII case folding, modelling `str.lower` / `re.IGNORECASE` on the
ASCII fragment. -/
def lowC (c : Char) : Char := c.toLower

def lowerChars (s : Chars) : Chars := s.map lowC

/-- Python `\s` and `str.strip` whitespace, ASCII fragment. -/
def isPySpace (c : Char) : Bool :=
  c = ' ' || c = '\t' || c = '\n' || c = '\r' || c = '\x0b' || c = '\x0c'

/-- Match the literal field name case-insensitively at the head of `s`
(the name has passed through `re.escape`, hence is literal); returns
the remainder on success. -/
def matchLitCI : Chars → Chars → Option Chars
  | [], s => some s
  | _ :: _, [] => none
  | c :: cs, d :: ds => if lowC c = lowC d then matchLitCI cs ds else none

/-! ## Replacement templates

`re.sub`'s replacement string is parsed into literal characters and
group references, following CPython's `parse_template`. -/

/-- A parsed element of a replacement template. -/
inductive Chunk where
  | lit (c : Char)
  | grp (n : Nat)
deriving Repr, DecidableEq

/-- The two kinds of exception `re.sub` can raise while compiling a
replacement template: `re.error` (caught in `fill_paragraph`) and
`IndexError` for an unknown group name (not caught). -/
inductive TErr where
  | reErr
  | idxErr
deriving Repr, DecidableEq

instance {ε α : Type} [DecidableEq ε] [DecidableEq α] : DecidableEq (Except ε α) :=
  fun a b =>
    match a, b with
    | .error e, .error e2 =>
      if h : e = e2 then .isTrue (by subst h; rfl)
      else .isFalse (by intro hh; injection hh; contradiction)
    | .error _, .ok _ => .isFalse (by intro hh; exact Except.noConfusion hh)
    | .ok _, .error _ => .isFalse (by intro hh; exact Except.noConfusion hh)
    | .ok x, .ok y =>
      if h : x = y then .isTrue (by subst h; rfl)
      else .isFalse (by intro hh; injection hh; contradiction)

def isOctDigit (c : Char) : Bool := '0' ≤ c && c ≤ '7'

def isAsciiLetter (c : Char) : Bool := ('a' ≤ c && c ≤ 'z') || ('A' ≤ c && c ≤ 'Z')

def digitVal (c : Char) : Nat := c.toNat - '0'.toNat

def digitsToNat (l : Chars) : Nat := l.foldl (fun a c => 10 * a + digitVal c) 0

def octToNat (l : Chars) : Nat := l.foldl (fun a c => 8 * a + digitVal c) 0

/-- Python `str.isidentifier`, ASCII fragment (used for `\g<name>`). -/
def pyIsIdentifier (l : Chars) : Bool :=
  match l with
  | [] => false
  | c :: cs =>
    (isAsciiLetter c || c = '_') &&
      cs.all (fun d => isAsciiLetter d || d.isDigit || d = '_')

/-- The character escapes recognised in replacement templates. -/
def escCharVal (d : Char) : Option Char :=
  if d = 'a' then some (Char.ofNat 7)
  else if d = 'b' then some (Char.ofNat 8)
  else if d = 'f' then some (Char.ofNat 12)
  else if d = 'n' then some (Char.ofNat 10)
  else if d = 'r' then some (Char.ofNat 13)
  else if d = 't' then some (Char.ofNat 9)
  else if d = 'v' then some (Char.ofNat 11)
  else if d = '\\' then some '\\'
  else none

/-- `\g<...>`: a digit name is a group reference checked against the
pattern's group count (`re.error` beyond it); a valid identifier is a
named group, and since these patterns define none, CPython raises
`IndexError` ("unknown group name"); anything else (empty name, bad
characters, missing angle brackets) is `re.error`.  `rec` continues
parsing the rest of the template. -/
def parseGroupRef (ng : Nat) (rec : Chars → Except TErr (List Chunk)) :
    Chars → Except TErr (List Chunk)
  | '<' :: r3 =>
    let nm := r3.takeWhile (fun x => x ≠ '>')
    match r3.dropWhile (fun x => x ≠ '>') with
    | '>' :: r4 =>
      if nm = [] then .error .reErr
      else if pyIsIdentifier nm then .error .idxErr
      else if nm.all (fun x => x.isDigit) then
        if digitsToNat nm ≤ ng then (rec r4).map (Chunk.grp (digitsToNat nm) :: ·)
        else .error .reErr
      else .error .reErr
    | _ => .error .reErr
  | _ => .error .reErr

/-- `\0` plus up to two more octal digits: an octal character escape. -/
def parseOctalZero (rec : Chars → Except TErr (List Chunk)) (r2 : Chars) :
    Except TErr (List Chunk) :=
  let od := (r2.takeWhile isOctDigit).take 2
  (rec (r2.drop od.length)).map (Chunk.lit (Char.ofNat (octToNat od)) :: ·)

/-- A backslash followed by a nonzero digit `d`: three octal digits
form an octal escape (error above `\377`), otherwise up to two digits
form a group reference checked against the group count. -/
def parseDigitRef (ng : Nat) (rec : Chars → Except TErr (List Chunk)) (d : Char) :
    Chars → Except TErr (List Chunk)
  | e :: r3 =>
    if e.isDigit then
      match r3 with
      | e2 :: r4 =>
        if isOctDigit d && isOctDigit e && isOctDigit e2 then
          if octToNat [d, e, e2] ≤ 255 then
            (rec r4).map (Chunk.lit (Char.ofNat (octToNat [d, e, e2])) :: ·)
          else .error .reErr
        else if digitsToNat [d, e] ≤ ng then
          (rec (e2 :: r4)).map (Chunk.grp (digitsToNat [d, e]) :: ·)
        else .error .reErr
      | [] =>
        if digitsToNat [d, e] ≤ ng then .ok [Chunk.grp (digitsToNat [d, e])]
        else .error .reErr
    else
      if digitVal d ≤ ng then (rec (e :: r3)).map (Chunk.grp (digitVal d) :: ·)
      else .error .reErr
  | [] =>
    if digitVal d ≤ ng then .ok [Chunk.grp (digitVal d)] else .error .reErr

/-- The character after a backslash: `\g...`, `\0...`, a digit, a
recognised character escape, an unknown ASCII-letter escape
(`re.error`), or any other character, which stands for itself with
the backslash kept. -/
def parseEscape (ng : Nat) (rec : Chars → Except TErr (List Chunk)) :
    Chars → Except TErr (List Chunk)
  | [] => .error .reErr
  | d :: r2 =>
    if d = 'g' then parseGroupRef ng rec r2
    else if d = '0' then parseOctalZero rec r2
    else if d.isDigit then parseDigitRef ng rec d r2
    else
      match escCharVal d with
      | some ec => (rec r2).map (Chunk.lit ec :: ·)
      | none =>
        if isAsciiLetter d then .error .reErr
        else (rec r2).map (fun l => Chunk.lit '\\' :: Chunk.lit d :: l)

/-- CPython `parse_template` over a replacement-template string, for
a pattern with `ng` capture groups and no named groups (the five
patterns of `fill_paragraph` have two or zero unnamed groups).  `fu`
is fuel; every step consumes at least one character, so fuel equal to
the template length suffices. -/
def parseTemplateF (ng : Nat) : Nat → Chars → Except TErr (List Chunk)
  | _, [] => .ok []
  | 0, _ :: _ => .error .reErr
  | fu + 1, c :: rest =>
    if c = '\\' then parseEscape ng (parseTemplateF ng fu) rest
    else (parseTemplateF ng fu rest).map (Chunk.lit c :: ·)

/-- The contents of group `n` of a match: group 0 is the whole match,
groups 1 and 2 are the two capture groups of patterns 1 and 2. -/
def grpVal (g0 g1 g2 : Chars) : Nat → Chars
  | 0 => g0
  | 1 => g1
  | 2 => g2
  | _ => []

/-- Expand a parsed replacement template at one match. -/
def expandRepl (g0 g1 g2 : Chars) (ch : List Chunk) : Chars :=
  ch.foldr
    (fun c acc =>
      match c with
      | .lit x => x :: acc
      | .grp n => grpVal g0 g1 g2 n ++ acc)
    []

/-! ## The five placeholder matchers

Each matcher decides whether its pattern matches at the head of the
span and returns `(whole match, group 1, group 2, remainder)`.  They
transcribe the five regexes of `fill_paragraph`:

1. `(name\s*:\s*)(_+|\s*$)` - since `\s*` is greedy and an underscore
   is not whitespace, the alternative `\s*$` can only ever match the
   empty string at the very end of the span, so the second branch
   requires the remainder to be empty.
2. `(name\s*)(_+)`
3. `\[name\]`   4. `\{\{name\}\}`   5. `<name>`. -/

def tryColon (name : Chars) (s : Chars) : Option (Chars × Chars × Chars × Chars) :=
  match matchLitCI name s with
  | none => none
  | some r1 =>
    let nm := s.take name.length
    let w1 := r1.takeWhile isPySpace
    match r1.dropWhile isPySpace with
    | ':' :: r3 =>
      let w2 := r3.takeWhile isPySpace
      let r4 := r3.dropWhile isPySpace
      let g1 := nm ++ w1 ++ ':' :: w2
      match r4 with
      | '_' :: _ =>
        let us := r4.takeWhile (fun c => c = '_')
        some (g1 ++ us, g1, us, r4.dropWhile (fun c => c = '_'))
      | [] => some (g1, g1, [], [])
      | _ => none
    | _ => none

def tryUnders (name : Chars) (s : Chars) : Option (Chars × Chars × Chars × Chars) :=
  match matchLitCI name s with
  | none => none
  | some r1 =>
    let nm := s.take name.length
    let w := r1.takeWhile isPySpace
    match r1.dropWhile isPySpace with
    | '_' :: _ =>
      let r2 := r1.dropWhile isPySpace
      let us := r2.takeWhile (fun c => c = '_')
      some (nm ++ w ++ us, nm ++ w, us, r2.dropWhile (fun c => c = '_'))
    | _ => none

def tryBracket (name : Chars) (s : Chars) : Option (Chars × Chars × Chars × Chars) :=
  match s with
  | c :: r1 =>
    if c = '[' then
      match matchLitCI name r1 with
      | some (']' :: r2) => some ('[' :: r1.take name.length ++ [']'], [], [], r2)
      | _ => none
    else none
  | [] => none

def tryBrace (name : Chars) (s : Chars) : Option (Chars × Chars × Chars × Chars) :=
  match s with
  | c1 :: c2 :: r1 =>
    if c1 = '{' && c2 = '{' then
      match matchLitCI name r1 with
      | some ('}' :: '}' :: r2) =>
        some ('{' :: '{' :: r1.take name.length ++ ['}', '}'], [], [], r2)
      | _ => none
    else none
  | _ => none

def tryAngle (name : Chars) (s : Chars) : Option (Chars × Chars × Chars × Chars) :=
  match s with
  | c :: r1 =>
    if c = '<' then
      match matchLitCI name r1 with
      | some ('>' :: r2) => some ('<' :: r1.take name.length ++ ['>'], [], [], r2)
      | _ => none
    else none
  | [] => none

/-- The scanning loop of `re.sub`: left to right, leftmost match,
replace and continue after the match (every pattern's match is
nonempty, so fuel equal to the span length suffices). -/
def subScan (tm : Chars → Option (Chars × Chars × Chars × Chars)) (ch : List Chunk) :
    Nat → Chars → Chars
  | 0, s => s
  | _ + 1, [] => []
  | fu + 1, c :: cs =>
    match tm (c :: cs) with
    | some (g0, g1, g2, rest) => expandRepl g0 g1 g2 ch ++ subScan tm ch fu rest
    | none => c :: subScan tm ch fu cs

/-- The five placeholder syntaxes, in the order `fill_paragraph`
tries them. -/
inductive PatKind where
  | colonBlank
  | underscores
  | bracket
  | brace
  | angle
deriving Repr, DecidableEq

def patternsOrder : List PatKind :=
  [.colonBlank, .underscores, .bracket, .brace, .angle]

/-- The replacement-template string of each pattern: `rf'\1{value}'`
for the two labelled patterns, the bare value for the other three. -/
def tmplOf (k : PatKind) (value : Chars) : Chars :=
  match k with
  | .colonBlank => '\\' :: '1' :: value
  | .underscores => '\\' :: '1' :: value
  | _ => value

/-- Number of capture groups in each pattern. -/
def ngOf (k : PatKind) : Nat :=
  match k with
  | .colonBlank => 2
  | .underscores => 2
  | _ => 0

def tryOf (k : PatKind) (name : Chars) : Chars → Option (Chars × Chars × Chars × Chars) :=
  match k with
  | .colonBlank => tryColon name
  | .underscores => tryUnders name
  | .bracket => tryBracket name
  | .brace => tryBrace name
  | .angle => tryAngle name

/-- One `re.sub(pattern, replacement, new_text, flags=re.IGNORECASE)`
call: the replacement template is compiled eagerly (even when nothing
matches), then every non-overlapping match is replaced. -/
def applyPatRaw (k : PatKind) (name value s : Chars) : Except TErr Chars :=
  match parseTemplateF (ngOf k) (tmplOf k value).length (tmplOf k value) with
  | .error e => .error e
  | .ok ch => .ok (subScan (tryOf k name) ch s.length s)

/-- The same call inside `fill_paragraph`'s `try ... except re.error:
continue`: `re.error` leaves the text unchanged, `IndexError`
propagates. -/
def applyPatCaught (k : PatKind) (name value s : Chars) : Except TErr Chars :=
  match applyPatRaw k name value s with
  | .error .reErr => .ok s
  | .error .idxErr => .error .idxErr
  | .ok r => .ok r

/-- `for ... in list: ...` with exception propagation. -/
def foldE {α β : Type} (f : β → α → Except TErr β) : β → List α → Except TErr β
  | b, [] => .ok b
  | b, a :: l =>
    match f b a with
    | .error e => .error e
    | .ok b2 => foldE f b2 l

/-- List traversal with exception propagation. -/
def mapE {α β : Type} (f : α → Except TErr β) : List α → Except TErr (List β)
  | [] => .ok []
  | a :: l =>
    match f a with
    | .error e => .error e
    | .ok b => (mapE f l).map (b :: ·)

/-- The inner loop of `fill_paragraph` for one field: the five
patterns are applied in order, each by a global substitution on the
output of the previous one. -/
def fillFieldChars (name value : Chars) (s : Chars) : Except TErr Chars :=
  foldE (fun acc k => applyPatCaught k name value acc) s patternsOrder

/-- `String`-level wrapper for the per-field rewrite of one span. -/
def fillFieldValue (name value t : String) : Except TErr String :=
  (fillFieldChars name.data value.data t.data).map String.mk

/-- `if value and value != "N/A"` - a Python string is truthy iff
nonempty. -/
def usable (v : String) : Bool :=
  if v = "" then false else if v = "N/A" then false else true

/-- The whole field loop of `fill_paragraph` on one span: fields are
applied in FieldMap iteration order, each on the output of the
previous one; fields with an empty or `"N/A"` value are skipped. -/
def fillText (fvs : List (String × String)) (t : String) : Except TErr String :=
  foldE
    (fun acc nv => if usable nv.2 then fillFieldValue nv.1 nv.2 acc else .ok acc)
    t fvs

/-! ## The document tree

`Run`, `Paragraph`, `Cell`, `Table`, `Section`, `Document`, modelling
the python-docx object tree that `fill_template` mutates.  A run's
formatting (font, bold, ...) is opaque to the engine and modelled by a
tag `fmt`; a fresh run created by a `text` setter carries the default
formatting `0`. -/

structure Run where
  text : String
  fmt : Nat
deriving Repr, DecidableEq

structure Paragraph where
  runs : List Run
deriving Repr, DecidableEq

/-- `paragraph.text`: the concatenation of the run texts. -/
def paraText (p : Paragraph) : String :=
  p.runs.foldr (fun r acc => r.text ++ acc) ""

/-- A fresh run made by a python-docx `text` setter. -/
def mkRun (t : String) : Run := ⟨t, 0⟩

/-- `fill_paragraph`: rewrite the paragraph text through all fields;
if the text changed, keep the first run (overwriting its text with the
whole new text), clear the text of every other run; a paragraph with
no runs gets the new text assigned via the `paragraph.text` setter,
which creates a single fresh run. -/
def fillParagraph (fvs : List (String × String)) (p : Paragraph) : Except TErr Paragraph :=
  let orig := paraText p
  match fillText fvs orig with
  | .error e => .error e
  | .ok nt =>
    .ok
      (if nt ≠ orig then
        match p.runs with
        | [] => ⟨[mkRun nt]⟩
        | r :: rs => ⟨⟨nt, r.fmt⟩ :: rs.map (fun q => ⟨"", q.fmt⟩)⟩
      else p)

structure Cell where
  paras : List Paragraph
deriving Repr, DecidableEq

/-- `cell.text`: paragraph texts joined by newlines. -/
def cellText (c : Cell) : String :=
  String.intercalate "\n" (c.paras.map paraText)

/-- Python `str.strip()` (ASCII whitespace fragment). -/
def pyStrip (t : String) : String :=
  ⟨((t.data.dropWhile isPySpace).reverse.dropWhile isPySpace).reverse⟩

/-- `re.match(r'^_+$|^\s*$', next_text)` as a Boolean: all underscores
(at least one) or all whitespace. -/
def matchesBlankRe (t : String) : Bool :=
  (!t.data.isEmpty && t.data.all (fun c => c = '_')) || t.data.all isPySpace

/-- Writing the value into a cell: `next_cell.paragraphs[0].text =
str(value)` when the cell has paragraphs (the setter replaces that
paragraph's runs by one fresh run), else `next_cell.text = str(value)`
(which creates one paragraph with one fresh run). -/
def setCellValue (c : Cell) (v : String) : Cell :=
  match c.paras with
  | [] => ⟨[⟨[mkRun v]⟩]⟩
  | _ :: ps => ⟨⟨[mkRun v]⟩ :: ps⟩

/-- The within-cell strategy: run `fill_paragraph` with the single
field over every paragraph of the cell. -/
def fillCellParas (n v : String) (c : Cell) : Except TErr Cell :=
  (mapE (fillParagraph [(n, v)]) c.paras).map Cell.mk

/-- `a.startsWith b` on character lists. -/
def listPrefixB : Chars → Chars → Bool
  | [], _ => true
  | _ :: _, [] => false
  | c :: cs, d :: ds => c = d && listPrefixB cs ds

/-- Python's substring test `needle in hay` (the empty needle occurs
in every string). -/
def listInfixB (n : Chars) : Chars → Bool
  | [] => listPrefixB n []
  | d :: ds => listPrefixB n (d :: ds) || listInfixB n ds

/-- The body of `fill_table`'s field loop at cell `i` of a row:
`ctext` is the stripped cell text read once when the cell was reached
(it is not re-read between fields).  If the field is usable and its
name occurs case-insensitively in `ctext`, and the next cell exists
and its (current) stripped text is empty or matches the blank regex,
the next cell receives the value; then, independently, every
paragraph of cell `i` is run through `fill_paragraph` for this
field. -/
def fillCellField (i : Nat) (ctext : String) (n v : String) (cells : List Cell) :
    Except TErr (List Cell) :=
  if usable v then
    let cells1 :=
      if listInfixB (lowerChars n.data) (lowerChars ctext.data) then
        if i + 1 < cells.length then
          let next := cells.getD (i + 1) ⟨[]⟩
          let nt := pyStrip (cellText next)
          if nt = "" || matchesBlankRe nt then cells.set (i + 1) (setCellValue next v)
          else cells
        else cells
      else cells
    match fillCellParas n v (cells1.getD i ⟨[]⟩) with
    | .error e => .error e
    | .ok c2 => .ok (cells1.set i c2)
  else .ok cells

/-- Processing one cell of a row: read the stripped cell text once,
then loop over all fields. -/
def fillCellStep (fvs : List (String × String)) (cells : List Cell) (i : Nat) :
    Except TErr (List Cell) :=
  let ctext := pyStrip (cellText (cells.getD i ⟨[]⟩))
  foldE (fun cs nv => fillCellField i ctext nv.1 nv.2 cs) cells fvs

/-- One row of `fill_table`: cells are visited left to right; earlier
mutations are visible to later cells. -/
def fillRow (fvs : List (String × String)) (cells : List Cell) : Except TErr (List Cell) :=
  foldE (fillCellStep fvs) cells (List.range cells.length)

/-- `fill_table` over a whole table. -/
def fillTable (fvs : List (String × String)) (rows : List (List Cell)) :
    Except TErr (List (List Cell)) :=
  mapE (fillRow fvs) rows

structure DSection where
  header : Option (List Paragraph)
  footer : Option (List Paragraph)
deriving Repr, DecidableEq

/-- The header/footer traversal of `fill_template` for one section. -/
def fillSection (fvs : List (String × String)) (s : DSection) : Except TErr DSection :=
  match s.header with
  | some hs =>
    match mapE (fillParagraph fvs) hs with
    | .error e => .error e
    | .ok hs2 =>
      match s.footer with
      | some fs =>
        match mapE (fillParagraph fvs) fs with
        | .error e => .error e
        | .ok fs2 => .ok ⟨some hs2, some fs2⟩
      | none => .ok ⟨some hs2, none⟩
  | none =>
    match s.footer with
    | some fs =>
      match mapE (fillParagraph fvs) fs with
      | .error e => .error e
      | .ok fs2 => .ok ⟨none, some fs2⟩
    | none => .ok ⟨none, none⟩

structure Document where
  paragraphs : List Paragraph
  tables : List (List (List Cell))
  sections : List DSection
deriving Repr, DecidableEq

/-- `fill_template`: top-level paragraphs, then tables, then the
header and footer paragraphs of every section. -/
def fillTemplate (doc : Document) (fvs : List (String × String)) : Except TErr Document :=
  match mapE (fillParagraph fvs) doc.paragraphs with
  | .error e => .error e
  | .ok ps =>
    match mapE (fillTable fvs) doc.tables with
    | .error e => .error e
    | .ok ts =>
      match mapE (fillSection fvs) doc.sections with
      | .error e => .error e
      | .ok ss => .ok ⟨ps, ts, ss⟩

/-- `fill_template_smart`: ignores `report_text` and delegates to
`fill_template`. -/
def fillTemplateSmart (doc : Document) (fvs : List (String × String))
    (reportText : String) : Except TErr Document :=
  fillTemplate doc fvs

/-- Every piece of text content in the tree, for frame-effect
statements: body paragraphs, all table-cell paragraphs, header and
footer paragraphs. -/
def concatMapL {α β : Type} (f : α → List β) : List α → List β
  | [] => []
  | a :: l => f a ++ concatMapL f l

def docTexts (doc : Document) : List String :=
  doc.paragraphs.map paraText ++
    concatMapL
      (fun t =>
        concatMapL (fun row => concatMapL (fun c => c.paras.map paraText) row) t)
      doc.tables ++
    concatMapL
      (fun s =>
        (s.header.getD []).map paraText ++ (s.footer.getD []).map paraText)
      doc.sections

/-- No suffix of `s` begins a match of `tm`: the substitution built on
`tm` finds nothing to replace in `s`. -/
def scanNoMatch (tm : Chars → Option (Chars × Chars × Chars × Chars)) : Chars → Bool
  | [] => (tm []).isNone
  | c :: cs => (tm (c :: cs)).isNone && scanNoMatch tm cs

/-- Syntax `k` for field `name` matches nowhere in `s`. -/
def noMatchPat (k : PatKind) (name : Chars) (s : Chars) : Bool :=
  scanNoMatch (tryOf k name) s

def isIdxErr {α : Type} : Except TErr α → Bool
  | .error .idxErr => true
  | _ => false

/-- Field `(n, v)` is inert on the span `t`: no syntax matches
anywhere in `t` and no syntax's replacement template raises the
uncatchable unknown-group-name error. -/
def fieldInertB (n v t : String) : Bool :=
  patternsOrder.all fun k =>
    noMatchPat k n.data t.data &&
      !(isIdxErr (parseTemplateF (ngOf k) (tmplOf k v.data).length (tmplOf k v.data)))

/-! ## Basic lemmas -/

theorem strAppendEmptyR (s : String) : s ++ "" = s := by
  cases s with
  | mk l => show String.mk (l ++ []) = String.mk l; rw [List.append_nil]

theorem strAppendEmptyL (s : String) : "" ++ s = s := rfl

theorem usable_eq_false {v : String} (h : v = "" ∨ v = "N/A") : usable v = false := by
  cases h with
  | inl h => subst h; rfl
  | inr h => subst h; rfl

theorem fillText_skip (fvs : List (String × String)) (t : String)
    (h : ∀ nv ∈ fvs, usable nv.2 = false) : fillText fvs t = .ok t := by
  induction fvs with
  | nil => rfl
  | cons nv l ih =>
    have h1 : usable nv.2 = false := h nv (List.mem_cons_self nv l)
    show foldE _ t (nv :: l) = Except.ok t
    simp only [foldE, h1, Bool.false_eq_true, if_false]
    exact ih fun x hx => h x (List.mem_cons_of_mem nv hx)

theorem fillParagraph_skip (fvs : List (String × String)) (p : Paragraph)
    (h : ∀ nv ∈ fvs, usable nv.2 = false) : fillParagraph fvs p = .ok p := by
  show (match fillText fvs (paraText p) with
    | Except.error e => Except.error e
    | Except.ok nt =>
      .ok
        (if nt ≠ paraText p then
          match p.runs with
          | [] => ⟨[mkRun nt]⟩
          | r :: rs => ⟨⟨nt, r.fmt⟩ :: rs.map (fun q => ⟨"", q.fmt⟩)⟩
        else p)) = Except.ok p
  rw [fillText_skip fvs (paraText p) h]
  simp

theorem mapE_ok_id {α : Type} (f : α → Except TErr α) (l : List α)
    (h : ∀ a ∈ l, f a = .ok a) : mapE f l = .ok l := by
  induction l with
  | nil => rfl
  | cons a l ih =>
    show (match f a with
      | Except.error e => Except.error e
      | Except.ok b => (mapE f l).map (b :: ·)) = Except.ok (a :: l)
    rw [h a (List.mem_cons_self a l), ih fun x hx => h x (List.mem_cons_of_mem a hx)]
    rfl

theorem foldE_ok_keep {α β : Type} (f : β → α → Except TErr β) (l : List α) (b : β)
    (h : ∀ a ∈ l, ∀ x, f x a = .ok x) : foldE f b l = .ok b := by
  induction l with
  | nil => rfl
  | cons a l ih =>
    show (match f b a with
      | Except.error e => Except.error e
      | Except.ok b2 => foldE f b2 l) = Except.ok b
    rw [h a (List.mem_cons_self a l) b]
    exact ih fun x hx => h x (List.mem_cons_of_mem a hx)

theorem foldE_fixed {α β : Type} (f : β → α → Except TErr β) (l : List α) (b : β)
    (h : ∀ a ∈ l, f b a = Except.ok b) : foldE f b l = Except.ok b := by
  induction l with
  | nil => rfl
  | cons a l ih =>
    show (match f b a with
      | Except.error e => Except.error e
      | Except.ok b2 => foldE f b2 l) = Except.ok b
    rw [h a (List.mem_cons_self a l)]
    exact ih fun x hx => h x (List.mem_cons_of_mem a hx)

theorem mem_concatMapL {α β : Type} (f : α → List β) {l : List α} {a : α} (ha : a ∈ l)
    {b : β} (hb : b ∈ f a) : b ∈ concatMapL f l := by
  induction l with
  | nil => cases ha
  | cons x l ih =>
    rcases List.mem_cons.mp ha with h | h
    · subst h; exact List.mem_append_left _ hb
    · exact List.mem_append_right _ (ih h)

theorem getD_set_ne {α : Type} : ∀ (l : List α) (i j : Nat) (a d : α), i ≠ j →
    (l.set i a).getD j d = l.getD j d := by
  intro l
  induction l with
  | nil => intro i j a d _; rfl
  | cons x xs ih =>
    intro i j a d h
    cases i with
    | zero =>
      cases j with
      | zero => exact absurd rfl h
      | succ j2 => rfl
    | succ i2 =>
      cases j with
      | zero => rfl
      | succ j2 => exact ih i2 j2 a d (fun hh => h (by rw [hh]))

theorem subScan_nil (tm : Chars → Option (Chars × Chars × Chars × Chars))
    (ch : List Chunk) (fu : Nat) : subScan tm ch fu [] = [] := by
  cases fu <;> rfl

theorem subScan_id_of_noMatch (tm : Chars → Option (Chars × Chars × Chars × Chars))
    (ch : List Chunk) :
    ∀ s : Chars, scanNoMatch tm s = true → ∀ fu, subScan tm ch fu s = s := by
  intro s
  induction s with
  | nil => intro _ fu; exact subScan_nil tm ch fu
  | cons c cs ih =>
    intro h fu
    have hh : (tm (c :: cs)).isNone = true ∧ scanNoMatch tm cs = true := by
      have := h
      rw [scanNoMatch] at this
      exact Bool.and_eq_true_iff.mp this
    cases fu with
    | zero => rfl
    | succ f =>
      cases htm : tm (c :: cs) with
      | some x => rw [htm] at hh; simp at hh
      | none =>
        show (match tm (c :: cs) with
          | some (g0, g1, g2, rest) => expandRepl g0 g1 g2 ch ++ subScan tm ch f rest
          | none => c :: subScan tm ch f cs) = c :: cs
        rw [htm, ih hh.2 f]

theorem applyPatRaw_parse_error (k : PatKind) (name value s : Chars) (e : TErr)
    (h : parseTemplateF (ngOf k) (tmplOf k value).length (tmplOf k value) =
      Except.error e) :
    applyPatRaw k name value s = Except.error e := by
  show (match parseTemplateF (ngOf k) (tmplOf k value).length (tmplOf k value) with
    | Except.error e2 => Except.error e2
    | Except.ok ch => Except.ok (subScan (tryOf k name) ch s.length s)) = _
  rw [h]

theorem applyPatRaw_parse_ok (k : PatKind) (name value s : Chars) (ch : List Chunk)
    (h : parseTemplateF (ngOf k) (tmplOf k value).length (tmplOf k value) =
      Except.ok ch) :
    applyPatRaw k name value s = Except.ok (subScan (tryOf k name) ch s.length s) := by
  show (match parseTemplateF (ngOf k) (tmplOf k value).length (tmplOf k value) with
    | Except.error e2 => Except.error e2
    | Except.ok ch2 => Except.ok (subScan (tryOf k name) ch2 s.length s)) = _
  rw [h]

theorem applyPat_inert (k : PatKind) (name value s : Chars)
    (hm : noMatchPat k name s = true)
    (hi : isIdxErr
      (parseTemplateF (ngOf k) (tmplOf k value).length (tmplOf k value)) = false) :
    applyPatCaught k name value s = Except.ok s := by
  cases hp : parseTemplateF (ngOf k) (tmplOf k value).length (tmplOf k value) with
  | error e =>
    cases e with
    | reErr =>
      show (match applyPatRaw k name value s with
        | Except.error TErr.reErr => Except.ok s
        | Except.error TErr.idxErr => Except.error TErr.idxErr
        | Except.ok r => Except.ok r) = Except.ok s
      rw [applyPatRaw_parse_error k name value s TErr.reErr hp]
    | idxErr => rw [hp] at hi; simp [isIdxErr] at hi
  | ok ch =>
    show (match applyPatRaw k name value s with
      | Except.error TErr.reErr => Except.ok s
      | Except.error TErr.idxErr => Except.error TErr.idxErr
      | Except.ok r => Except.ok r) = Except.ok s
    rw [applyPatRaw_parse_ok k name value s ch hp,
      subScan_id_of_noMatch (tryOf k name) ch s hm s.length]

theorem fillField_inert (n v t : String) (h : fieldInertB n v t = true) :
    fillFieldValue n v t = Except.ok t := by
  have hall := List.all_eq_true.mp h
  have hchain :
      foldE (fun acc k => applyPatCaught k n.data v.data acc) t.data patternsOrder =
        Except.ok t.data := by
    refine foldE_fixed _ _ _ fun k hk => ?_
    have hk2 := hall k hk
    rw [Bool.and_eq_true_iff] at hk2
    refine applyPat_inert k n.data v.data t.data hk2.1 ?_
    have h2 := hk2.2
    cases hb : isIdxErr (parseTemplateF (ngOf k) (tmplOf k v.data).length (tmplOf k v.data))
    · rfl
    · rw [hb] at h2; simp at h2
  show (fillFieldChars n.data v.data t.data).map String.mk = Except.ok t
  rw [show fillFieldChars n.data v.data t.data = Except.ok t.data from hchain]
  rfl

theorem fillText_inert (fvs : List (String × String)) (t : String)
    (h : ∀ nv ∈ fvs, usable nv.2 = true → fieldInertB nv.1 nv.2 t = true) :
    fillText fvs t = Except.ok t := by
  refine foldE_fixed _ _ _ fun nv hnv => ?_
  cases hu : usable nv.2 with
  | false => simp [hu]
  | true => simpa [hu] using fillField_inert nv.1 nv.2 t (h nv hnv hu)

theorem matchLitCI_self : ∀ (name r : Chars), matchLitCI name (name ++ r) = some r := by
  intro name
  induction name with
  | nil => intro r; rfl
  | cons c cs ih =>
    intro r
    show (if lowC c = lowC c then matchLitCI cs (cs ++ r) else none) = some r
    rw [if_pos rfl, ih]

theorem matchLitCI_length : ∀ (name s r : Chars),
    matchLitCI name s = some r → name.length + r.length = s.length := by
  intro name
  induction name with
  | nil =>
    intro s r h
    simp only [matchLitCI, Option.some.injEq] at h
    subst h
    simp
  | cons c cs ih =>
    intro s r h
    cases s with
    | nil => simp [matchLitCI] at h
    | cons d ds =>
      rw [matchLitCI] at h
      split at h
      · have := ih ds r h
        simp only [List.length_cons]
        omega
      · simp at h

theorem takeLenAppend : ∀ (l1 l2 : Chars), (l1 ++ l2).take l1.length = l1 := by
  intro l1
  induction l1 with
  | nil => intro l2; rfl
  | cons c cs ih =>
    intro l2
    show List.take (cs.length + 1) (c :: (cs ++ l2)) = c :: cs
    rw [List.take_succ_cons, ih]

theorem parse_lits (ng : Nat) :
    ∀ v : Chars, v.all (fun ch => ch ≠ '\\') = true → ∀ fu, v.length ≤ fu →
      parseTemplateF ng fu v = Except.ok (v.map Chunk.lit) := by
  intro v
  induction v with
  | nil => intro _ fu _; cases fu <;> rfl
  | cons c cs ih =>
    intro h fu hfu
    rw [List.all_cons, Bool.and_eq_true_iff] at h
    have hc : c ≠ '\\' := of_decide_eq_true h.1
    cases fu with
    | zero => exact absurd hfu (by simp)
    | succ f =>
      show (if c = '\\' then parseEscape ng (parseTemplateF ng f) cs
        else (parseTemplateF ng f cs).map (Chunk.lit c :: ·)) =
        Except.ok ((c :: cs).map Chunk.lit)
      rw [if_neg hc, ih h.2 f (Nat.le_of_succ_le_succ hfu)]
      rfl

theorem parse_grp1 (ng : Nat) (hng : 1 ≤ ng) (v : Chars)
    (hb : v.all (fun ch => ch ≠ '\\') = true)
    (hd : (v.headD 'x').isDigit = false) :
    parseTemplateF ng (v.length + 2) ('\\' :: '1' :: v) =
      Except.ok (Chunk.grp 1 :: v.map Chunk.lit) := by
  show (if ('\\' : Char) = '\\' then parseEscape ng (parseTemplateF ng (v.length + 1)) ('1' :: v)
    else (parseTemplateF ng (v.length + 1) ('1' :: v)).map (Chunk.lit '\\' :: ·)) = _
  rw [if_pos rfl]
  show (if ('1' : Char) = 'g' then parseGroupRef ng (parseTemplateF ng (v.length + 1)) v
    else if ('1' : Char) = '0' then parseOctalZero (parseTemplateF ng (v.length + 1)) v
    else if ('1' : Char).isDigit then parseDigitRef ng (parseTemplateF ng (v.length + 1)) '1' v
    else
      match escCharVal '1' with
      | some ec => (parseTemplateF ng (v.length + 1) v).map (Chunk.lit ec :: ·)
      | none =>
        if isAsciiLetter '1' then Except.error TErr.reErr
        else (parseTemplateF ng (v.length + 1) v).map
          (fun l => Chunk.lit '\\' :: Chunk.lit '1' :: l)) = _
  rw [if_neg (by decide), if_neg (by decide), if_pos (by decide)]
  cases v with
  | nil =>
    show (if digitVal '1' ≤ ng then Except.ok [Chunk.grp (digitVal '1')]
      else Except.error TErr.reErr) = _
    rw [if_pos (show digitVal '1' ≤ ng from hng)]
    rfl
  | cons e r3 =>
    have he : e.isDigit = false := hd
    show (if e.isDigit then _ else
      if digitVal '1' ≤ ng then
        (parseTemplateF ng (r3.length + 2) (e :: r3)).map (Chunk.grp (digitVal '1') :: ·)
      else Except.error TErr.reErr) = _
    rw [if_neg (by simp [he]), if_pos (show digitVal '1' ≤ ng from hng),
      parse_lits ng (e :: r3) hb (r3.length + 2) (by simp)]
    rfl

theorem expand_lits (g0 g1 g2 : Chars) : ∀ v : Chars,
    expandRepl g0 g1 g2 (v.map Chunk.lit) = v := by
  intro v
  induction v with
  | nil => rfl
  | cons c cs ih =>
    show c :: expandRepl g0 g1 g2 (cs.map Chunk.lit) = c :: cs
    rw [ih]

theorem expand_grp1_lits (g0 g1 g2 v : Chars) :
    expandRepl g0 g1 g2 (Chunk.grp 1 :: v.map Chunk.lit) = g1 ++ v := by
  show grpVal g0 g1 g2 1 ++ expandRepl g0 g1 g2 (v.map Chunk.lit) = g1 ++ v
  rw [expand_lits]
  rfl

theorem tryBracket_none_of_ne (name : Chars) (c : Char) (cs : Chars) (hc : c ≠ '[') :
    tryBracket name (c :: cs) = none := by
  show (if c = '[' then _ else none) = none
  rw [if_neg hc]

theorem tryBracket_at (name r : Chars) :
    tryBracket name ('[' :: (name ++ ']' :: r)) =
      some ('[' :: (name ++ ']' :: r).take name.length ++ [']'], [], [], r) := by
  show (if ('[' : Char) = '[' then
    match matchLitCI name (name ++ ']' :: r) with
    | some (']' :: r2) =>
      some ('[' :: (name ++ ']' :: r).take name.length ++ [']'], [], [], r2)
    | _ => none
  else none) = _
  rw [if_pos rfl, matchLitCI_self]
  rfl

theorem tryBracket_consumes (name s g0 g1 g2 rest : Chars)
    (h : tryBracket name s = some (g0, g1, g2, rest)) : rest.length < s.length := by
  cases s with
  | nil => simp [tryBracket] at h
  | cons c r1 =>
    simp only [tryBracket] at h
    split at h
    · split at h
      · rename_i r2 heq
        have hrest : r2 = rest := by
          have h2 := congrArg
            (fun t : Option (Chars × Chars × Chars × Chars) =>
              (t.getD ([], [], [], [])).2.2.2) h
          simpa using h2
        subst hrest
        have hlen := matchLitCI_length name r1 (']' :: r2) heq
        simp only [List.length_cons] at hlen ⊢
        omega
      · simp at h
    · simp at h

theorem subScan_fuelIrrel (tm : Chars → Option (Chars × Chars × Chars × Chars))
    (htm : ∀ s g0 g1 g2 rest, tm s = some (g0, g1, g2, rest) → rest.length < s.length)
    (ch : List Chunk) :
    ∀ fu fu2 s, s.length ≤ fu → s.length ≤ fu2 →
      subScan tm ch fu s = subScan tm ch fu2 s := by
  intro fu
  induction fu with
  | zero =>
    intro fu2 s h1 _
    have hs : s = [] := List.eq_nil_of_length_eq_zero (Nat.le_zero.mp h1)
    subst hs
    rw [subScan_nil, subScan_nil]
  | succ f ih =>
    intro fu2 s h1 h2
    cases s with
    | nil => rw [subScan_nil, subScan_nil]
    | cons c cs =>
      cases fu2 with
      | zero => exact absurd h2 (by simp)
      | succ f2 =>
        cases htm2 : tm (c :: cs) with
        | none =>
          simp only [subScan, htm2]
          rw [ih f2 cs (Nat.le_of_succ_le_succ h1) (Nat.le_of_succ_le_succ h2)]
        | some x =>
          obtain ⟨g0, g1, g2, rest⟩ := x
          have hr := htm _ _ _ _ _ htm2
          simp only [List.length_cons] at hr h1 h2
          have hrf : rest.length ≤ f := by omega
          have hrf2 : rest.length ≤ f2 := by omega
          simp only [subScan, htm2]
          rw [ih f2 rest hrf hrf2]

theorem scanNoMatch_noBracket (name : Chars) : ∀ a : Chars,
    a.all (fun c => c ≠ '[') = true → scanNoMatch (tryBracket name) a = true := by
  intro a
  induction a with
  | nil => intro _; rfl
  | cons c cs ih =>
    intro h
    rw [List.all_cons, Bool.and_eq_true_iff] at h
    have hc : c ≠ '[' := of_decide_eq_true h.1
    show ((tryBracket name (c :: cs)).isNone && scanNoMatch (tryBracket name) cs) = true
    rw [tryBracket_none_of_ne name c cs hc, ih h.2]
    rfl

theorem subScan_bracket_copy (name : Chars) (ch : List Chunk) :
    ∀ (a r : Chars), a.all (fun c2 => c2 ≠ '[') = true → ∀ fu, (a ++ r).length ≤ fu →
      subScan (tryBracket name) ch fu (a ++ r) =
        a ++ subScan (tryBracket name) ch r.length r := by
  intro a
  induction a with
  | nil =>
    intro r _ fu hfu
    exact subScan_fuelIrrel (tryBracket name)
      (fun s g0 g1 g2 rest h => tryBracket_consumes name s g0 g1 g2 rest h)
      ch fu r.length r (by simpa using hfu) (le_refl _)
  | cons c a2 ih =>
    intro r h fu hfu
    rw [List.all_cons, Bool.and_eq_true_iff] at h
    have hc : c ≠ '[' := of_decide_eq_true h.1
    cases fu with
    | zero => exact absurd hfu (by simp)
    | succ f =>
      show subScan (tryBracket name) ch (f + 1) (c :: (a2 ++ r)) = _
      simp only [subScan, tryBracket_none_of_ne name c (a2 ++ r) hc]
      rw [ih r h.2 f (by simp only [List.length_append, List.length_cons] at hfu ⊢; omega)]
      rfl

theorem subScan_bracket_match (name r : Chars) (ch : List Chunk) :
    ∀ fu, ('[' :: (name ++ ']' :: r)).length ≤ fu →
      subScan (tryBracket name) ch fu ('[' :: (name ++ ']' :: r)) =
        expandRepl ('[' :: (name ++ ']' :: r).take name.length ++ [']']) [] [] ch ++
          subScan (tryBracket name) ch r.length r := by
  intro fu hfu
  cases fu with
  | zero => exact absurd hfu (by simp)
  | succ f =>
    have hfr : r.length ≤ f := by
      simp only [List.length_cons, List.length_append] at hfu
      omega
    simp only [subScan, tryBracket_at]
    rw [subScan_fuelIrrel (tryBracket name)
      (fun s g0 g1 g2 rest h2 => tryBracket_consumes name s g0 g1 g2 rest h2)
      ch f r.length r hfr (le_refl _)]

theorem fillCellField_skip (i : Nat) (ctext n v : String) (cells : List Cell)
    (h : usable v = false) : fillCellField i ctext n v cells = .ok cells := by
  show (if usable v then _ else .ok cells) = Except.ok cells
  rw [h]
  simp

theorem fillRow_skip (fvs : List (String × String)) (cells : List Cell)
    (h : ∀ nv ∈ fvs, usable nv.2 = false) : fillRow fvs cells = .ok cells := by
  refine foldE_ok_keep _ _ _ fun i _ cs => ?_
  refine foldE_ok_keep _ _ _ fun nv hnv cs2 => ?_
  exact fillCellField_skip _ _ _ _ _ (h nv hnv)

theorem fillSection_skip (fvs : List (String × String)) (s : DSection)
    (h : ∀ nv ∈ fvs, usable nv.2 = false) : fillSection fvs s = .ok s := by
  obtain ⟨hd, ft⟩ := s
  cases hd with
  | none =>
    cases ft with
    | none => rfl
    | some fs =>
      show (match mapE (fillParagraph fvs) fs with
        | Except.error e => Except.error e
        | Except.ok fs2 => Except.ok (⟨none, some fs2⟩ : DSection)) = _
      rw [mapE_ok_id _ _ fun p _ => fillParagraph_skip fvs p h]
  | some hs =>
    cases ft with
    | none =>
      show (match mapE (fillParagraph fvs) hs with
        | Except.error e => Except.error e
        | Except.ok hs2 => Except.ok (⟨some hs2, none⟩ : DSection)) = _
      rw [mapE_ok_id _ _ fun p _ => fillParagraph_skip fvs p h]
    | some fs =>
      show (match mapE (fillParagraph fvs) hs with
        | Except.error e => Except.error e
        | Except.ok hs2 =>
          match mapE (fillParagraph fvs) fs with
          | Except.error e => Except.error e
          | Except.ok fs2 => Except.ok (⟨some hs2, some fs2⟩ : DSection)) = _
      rw [mapE_ok_id _ _ fun p _ => fillParagraph_skip fvs p h,
        mapE_ok_id _ _ fun p _ => fillParagraph_skip fvs p h]

/-! ## Claims -/

/-- C3: for a FieldMap in which every value is empty or the sentinel
`"N/A"`, the fill pass leaves every paragraph, table cell and
header/footer paragraph untouched - `fill_template` returns the tree
unchanged (no substitution is attempted anywhere). -/
theorem fillTemplate_noop (doc : Document) (fvs : List (String × String))
    (h : ∀ nv ∈ fvs, nv.2 = "" ∨ nv.2 = "N/A") :
    fillTemplate doc fvs = .ok doc := by
  have hu : ∀ nv ∈ fvs, usable nv.2 = false := fun nv hnv => usable_eq_false (h nv hnv)
  show (match mapE (fillParagraph fvs) doc.paragraphs with
    | Except.error e => Except.error e
    | Except.ok ps =>
      match mapE (fillTable fvs) doc.tables with
      | Except.error e => Except.error e
      | Except.ok ts =>
        match mapE (fillSection fvs) doc.sections with
        | Except.error e => Except.error e
        | Except.ok ss => Except.ok ⟨ps, ts, ss⟩) = Except.ok doc
  rw [mapE_ok_id (fillParagraph fvs) _ fun p _ => fillParagraph_skip fvs p hu,
    mapE_ok_id (fillTable fvs) _ fun t _ =>
      mapE_ok_id (fillRow fvs) _ fun row _ => fillRow_skip fvs row hu,
    mapE_ok_id (fillSection fvs) _ fun s _ => fillSection_skip fvs s hu]

/-- C3 witness: a document with a body paragraph, a table and a header
is unchanged by a FieldMap holding only an empty and an `"N/A"`
value. -/
theorem fillTemplate_noop_witness :
    fillTemplate
      ⟨[⟨[⟨"Name: __", 1⟩]⟩],
        [[[⟨[⟨[⟨"Name", 0⟩]⟩]⟩, ⟨[⟨[⟨"_", 0⟩]⟩]⟩]]],
        [⟨some [⟨[⟨"[Name]", 2⟩]⟩], none⟩]⟩
      [("Name", ""), ("Date", "N/A")] =
      .ok
        ⟨[⟨[⟨"Name: __", 1⟩]⟩],
          [[[⟨[⟨[⟨"Name", 0⟩]⟩]⟩, ⟨[⟨[⟨"_", 0⟩]⟩]⟩]]],
          [⟨some [⟨[⟨"[Name]", 2⟩]⟩], none⟩]⟩ :=
  fillTemplate_noop _ _ (by decide)

/-- C8: `fill_template_smart` never consults its `report_text`
argument and returns exactly `fill_template`'s result. -/
theorem fillTemplateSmart_eq_fillTemplate (doc : Document)
    (fvs : List (String × String)) (reportText : String) :
    fillTemplateSmart doc fvs reportText = fillTemplate doc fvs := rfl

theorem paraText_all_cleared (rs : List Run) :
    paraText ⟨rs.map (fun q => (⟨"", q.fmt⟩ : Run))⟩ = "" := by
  induction rs with
  | nil => rfl
  | cons r rs ih =>
    show "" ++ paraText ⟨rs.map (fun q => (⟨"", q.fmt⟩ : Run))⟩ = ""
    rw [strAppendEmptyL, ih]

theorem fillParagraph_eq_ok (fvs : List (String × String)) (p : Paragraph) (nt : String)
    (h : fillText fvs (paraText p) = Except.ok nt) :
    fillParagraph fvs p =
      Except.ok
        (if nt ≠ paraText p then
          match p.runs with
          | [] => ⟨[mkRun nt]⟩
          | r :: rs => ⟨⟨nt, r.fmt⟩ :: rs.map (fun q => ⟨"", q.fmt⟩)⟩
        else p) := by
  simp only [fillParagraph, h]

theorem fillParagraph_unchanged (fvs : List (String × String)) (p : Paragraph)
    (h : fillText fvs (paraText p) = Except.ok (paraText p)) :
    fillParagraph fvs p = Except.ok p := by
  rw [fillParagraph_eq_ok fvs p (paraText p) h]
  simp

/-- C2: on a paragraph with at least one run, if applying all fields
in FieldMap order changes the text, `fill_paragraph` writes the whole
new text into the first run and clears the text of every other run,
so the concatenated run texts equal the new text and every run keeps
its formatting; if the text is unchanged, no run is mutated. -/
theorem fillParagraph_run_rewrite (fvs : List (String × String)) (r : Run) (rs : List Run)
    (nt : String) (h : fillText fvs (paraText ⟨r :: rs⟩) = Except.ok nt) :
    (nt ≠ paraText ⟨r :: rs⟩ →
      fillParagraph fvs ⟨r :: rs⟩ =
        Except.ok ⟨⟨nt, r.fmt⟩ :: rs.map (fun q => ⟨"", q.fmt⟩)⟩ ∧
      paraText ⟨⟨nt, r.fmt⟩ :: rs.map (fun q => ⟨"", q.fmt⟩)⟩ = nt ∧
      (⟨⟨nt, r.fmt⟩ :: rs.map (fun q => ⟨"", q.fmt⟩)⟩ : Paragraph).runs.map Run.fmt =
        (r :: rs).map Run.fmt) ∧
    (nt = paraText ⟨r :: rs⟩ → fillParagraph fvs ⟨r :: rs⟩ = Except.ok ⟨r :: rs⟩) := by
  constructor
  · intro hne
    refine ⟨?_, ?_, ?_⟩
    · rw [fillParagraph_eq_ok fvs _ nt h, if_pos hne]
    · show nt ++ paraText ⟨rs.map (fun q => (⟨"", q.fmt⟩ : Run))⟩ = nt
      rw [paraText_all_cleared, strAppendEmptyR]
    · show Run.fmt ⟨nt, r.fmt⟩ :: (rs.map (fun q => (⟨"", q.fmt⟩ : Run))).map Run.fmt = _
      rw [List.map_map]
      rfl
  · intro heq
    rw [fillParagraph_eq_ok fvs _ nt h, if_neg (by simp [heq])]

/-- C2 witness: the two-run paragraph `"Name: "` (formatting tag 1,
the bold run of the spec example) and `"____"` (tag 2), filled with
`name` -> `Alice`: the first run becomes `"Name: Alice"` keeping tag
1, the second run's text is cleared keeping tag 2, and the
concatenated text is `"Name: Alice"`. -/
theorem fillParagraph_run_rewrite_witness :
    fillParagraph [("name", "Alice")] ⟨[⟨"Name: ", 1⟩, ⟨"____", 2⟩]⟩ =
      Except.ok ⟨[⟨"Name: Alice", 1⟩, ⟨"", 2⟩]⟩ ∧
    paraText ⟨[⟨"Name: Alice", 1⟩, ⟨"", 2⟩]⟩ = "Name: Alice" := by
  have h :=
    (fillParagraph_run_rewrite [("name", "Alice")] ⟨"Name: ", 1⟩ [⟨"____", 2⟩]
      "Name: Alice" (by decide)).1 (by decide)
  exact ⟨h.1, h.2.1⟩

/-- C4 counterexample: in the row `["A B", "___"]` with the FieldMap
`A` -> `"hello"`, `B` -> `"world"`, the claim's conditions hold on
the input row for field `B` (its name occurs case-insensitively in
the first cell's text, the following cell's stripped text is all
underscores, the value is usable), yet the following cell never
receives `"world"`: field `A` is processed first and fills the blank
with `"hello"`, and when `B` is processed the next cell's (re-read)
text is no longer blank.  The following cell ends as `"hello"`. -/
theorem adjacent_value_blocked_cex :
    fillTable [("A", "hello"), ("B", "world")]
      [[⟨[⟨[⟨"A B", 0⟩]⟩]⟩, ⟨[⟨[⟨"___", 0⟩]⟩]⟩]] =
      Except.ok [[⟨[⟨[⟨"A B", 0⟩]⟩]⟩, ⟨[⟨[⟨"hello", 0⟩]⟩]⟩]] ∧
    listInfixB (lowerChars ("B" : String).data) (lowerChars ("A B" : String).data) = true ∧
    matchesBlankRe (pyStrip "___") = true ∧
    usable "world" = true ∧
    cellText ⟨[⟨[⟨"hello", 0⟩]⟩]⟩ ≠ "world" := by
  decide

/-- C4 amended: the adjacent-value strategy holds per processing
step, against the live row state: for every row state, cell index and
usable field, if the field name occurs (case-insensitive substring)
in the stripped cell text that was read when the cell was reached,
the following cell exists, and - at the moment this field is
processed - the following cell's stripped text is empty or matches
the blank regex, then exactly that following cell receives the value
(its first paragraph's text is replaced by a single run holding the
value): every cell other than it and the label cell (which undergoes
only the independent within-cell pass, `c2`) is unchanged by the
step.  Because fields are applied in FieldMap order to the live row,
an earlier field's fill can block a later field's adjacent fill (see
the counterexample).  In particular, the documented row
`["Claimant Name", "___", "Date", ""]` with
`Claimant Name` -> `Jane Smith` fills only the second cell, and the
fourth cell stays empty. -/
theorem fillTable_adjacent_of_blank :
    (∀ (i : Nat) (ctext n v : String) (cells : List Cell) (c2 : Cell),
      usable v = true →
      listInfixB (lowerChars n.data) (lowerChars ctext.data) = true →
      i + 1 < cells.length →
      (pyStrip (cellText (cells.getD (i + 1) ⟨[]⟩)) = "" ∨
        matchesBlankRe (pyStrip (cellText (cells.getD (i + 1) ⟨[]⟩))) = true) →
      fillCellParas n v
          ((cells.set (i + 1) (setCellValue (cells.getD (i + 1) ⟨[]⟩) v)).getD i ⟨[]⟩) =
        Except.ok c2 →
      fillCellField i ctext n v cells =
        Except.ok
          ((cells.set (i + 1) (setCellValue (cells.getD (i + 1) ⟨[]⟩) v)).set i c2) ∧
      ∀ j, j ≠ i → j ≠ i + 1 →
        ((cells.set (i + 1) (setCellValue (cells.getD (i + 1) ⟨[]⟩) v)).set i c2).getD j
            ⟨[]⟩ =
          cells.getD j ⟨[]⟩) ∧
    fillTable [("Claimant Name", "Jane Smith")]
      [[⟨[⟨[⟨"Claimant Name", 0⟩]⟩]⟩, ⟨[⟨[⟨"___", 0⟩]⟩]⟩,
        ⟨[⟨[⟨"Date", 0⟩]⟩]⟩, ⟨[⟨[⟨"", 0⟩]⟩]⟩]] =
      Except.ok
        [[⟨[⟨[⟨"Claimant Name", 0⟩]⟩]⟩, ⟨[⟨[⟨"Jane Smith", 0⟩]⟩]⟩,
          ⟨[⟨[⟨"Date", 0⟩]⟩]⟩, ⟨[⟨[⟨"", 0⟩]⟩]⟩]] := by
  constructor
  · intro i ctext n v cells c2 hu hin hlt hblank hpar
    have hb2 : (pyStrip (cellText (cells.getD (i + 1) ⟨[]⟩)) = "" ||
        matchesBlankRe (pyStrip (cellText (cells.getD (i + 1) ⟨[]⟩)))) = true := by
      rcases hblank with h | h
      · rw [h]; rfl
      · rw [h, Bool.or_true]
    constructor
    · simp only [fillCellField, hu, hin, hlt, hb2, if_true, hpar]
    · intro j hj hj1
      rw [getD_set_ne _ i j c2 ⟨[]⟩ (Ne.symm hj),
        getD_set_ne _ (i + 1) j (setCellValue (cells.getD (i + 1) ⟨[]⟩) v) ⟨[]⟩
          (Ne.symm hj1)]
  · decide

/-- C4 amended witness: the per-step statement applied to the
documented row at the label cell. -/
theorem fillTable_adjacent_of_blank_witness :
    fillCellField 0 "Claimant Name" "Claimant Name" "Jane Smith"
      [⟨[⟨[⟨"Claimant Name", 0⟩]⟩]⟩, ⟨[⟨[⟨"___", 0⟩]⟩]⟩,
        ⟨[⟨[⟨"Date", 0⟩]⟩]⟩, ⟨[⟨[⟨"", 0⟩]⟩]⟩] =
      Except.ok
        [⟨[⟨[⟨"Claimant Name", 0⟩]⟩]⟩, ⟨[⟨[⟨"Jane Smith", 0⟩]⟩]⟩,
          ⟨[⟨[⟨"Date", 0⟩]⟩]⟩, ⟨[⟨[⟨"", 0⟩]⟩]⟩] := by
  have h := (fillTable_adjacent_of_blank.1 0 "Claimant Name" "Claimant Name" "Jane Smith"
    [⟨[⟨[⟨"Claimant Name", 0⟩]⟩]⟩, ⟨[⟨[⟨"___", 0⟩]⟩]⟩,
      ⟨[⟨[⟨"Date", 0⟩]⟩]⟩, ⟨[⟨[⟨"", 0⟩]⟩]⟩]
    ⟨[⟨[⟨"Claimant Name", 0⟩]⟩]⟩
    (by decide) (by decide) (by decide) (by decide) (by decide)).1
  exact h

/-- C1 counterexample: for field `"A"` with value `"A_"` on the span
`"A:"`, the first syntax (labelled blank) matches and alone would
produce `"A:A_"`, but the full per-field rewrite produces `"A:AA_"`:
the second syntax (label followed by underscores) rewrites the span
again after the first syntax already matched. -/
theorem laterPatternRewrites_cex :
    applyPatCaught .colonBlank ("A" : String).data ("A_" : String).data
        ("A:" : String).data = Except.ok ("A:A_" : String).data ∧
    fillFieldValue "A" "A_" "A:" = Except.ok "A:AA_" ∧
    ("A:AA_" : String) ≠ "A:A_" := by
  decide

/-- C1 amended: the five syntaxes are tried in the fixed order, but
there is no first-match cut: each syntax's global substitution is
applied to the output of the previous one, so a later syntax can
rewrite text produced by an earlier match.  The per-field rewrite is
exactly the sequential composition of the five substitutions. -/
theorem fillField_seq_order (name value t : String) :
    fillFieldValue name value t =
      Except.map String.mk
        (Except.bind (applyPatCaught .colonBlank name.data value.data t.data) fun t1 =>
          Except.bind (applyPatCaught .underscores name.data value.data t1) fun t2 =>
            Except.bind (applyPatCaught .bracket name.data value.data t2) fun t3 =>
              Except.bind (applyPatCaught .brace name.data value.data t3) fun t4 =>
                applyPatCaught .angle name.data value.data t4) := by
  simp only [fillFieldValue, fillFieldChars, patternsOrder]
  cases h1 : applyPatCaught .colonBlank name.data value.data t.data with
  | error e => simp only [foldE, h1, Except.bind]
  | ok t1 =>
    cases h2 : applyPatCaught .underscores name.data value.data t1 with
    | error e => simp only [foldE, h1, h2, Except.bind]
    | ok t2 =>
      cases h3 : applyPatCaught .bracket name.data value.data t2 with
      | error e => simp only [foldE, h1, h2, h3, Except.bind]
      | ok t3 =>
        cases h4 : applyPatCaught .brace name.data value.data t3 with
        | error e => simp only [foldE, h1, h2, h3, h4, Except.bind]
        | ok t4 =>
          simp only [foldE, h1, h2, h3, h4, Except.bind]
          cases applyPatCaught .angle name.data value.data t4 <;> rfl

/-- C5 counterexample: a document whose only placeholder is the
bracketed `"[Name]"`, filled with the non-empty, non-`"N/A"`,
non-underscore value `"Name:"`: the first pass yields `"Name:"`, and
a second pass with the same FieldMap turns it into `"Name:Name:"` -
the filled value forms a new trailing labelled blank, so the fill
pass is not idempotent. -/
theorem fillTemplate_not_idempotent_cex :
    fillTemplate ⟨[⟨[⟨"[Name]", 0⟩]⟩], [], []⟩ [("Name", "Name:")] =
      Except.ok ⟨[⟨[⟨"Name:", 0⟩]⟩], [], []⟩ ∧
    fillTemplate ⟨[⟨[⟨"Name:", 0⟩]⟩], [], []⟩ [("Name", "Name:")] =
      Except.ok ⟨[⟨[⟨"Name:Name:", 0⟩]⟩], [], []⟩ ∧
    docTexts ⟨[⟨[⟨"Name:Name:", 0⟩]⟩], [], []⟩ ≠ docTexts ⟨[⟨[⟨"Name:", 0⟩]⟩], [], []⟩ := by
  decide

/-- C5 amended: the second pass changes nothing provided the
once-filled document has no tables and, on every paragraph text of
the once-filled tree (body, header, footer), no placeholder syntax of
any usable field matches any more and no field value's replacement
template raises the uncatchable unknown-group-name error.  Without
the no-remaining-match condition idempotence fails (see the
counterexample), and the table strategy is separately non-idempotent
for empty/underscore-like values. -/
theorem fillTemplate_second_pass_inert (doc d1 : Document)
    (fvs : List (String × String))
    (h1 : fillTemplate doc fvs = Except.ok d1)
    (hnt : d1.tables = [])
    (hin : ∀ t ∈ docTexts d1, ∀ nv ∈ fvs, usable nv.2 = true →
      fieldInertB nv.1 nv.2 t = true) :
    fillTemplate d1 fvs = Except.ok d1 := by
  clear h1
  obtain ⟨P, T, S⟩ := d1
  obtain rfl : T = [] := hnt
  have hp : ∀ p ∈ P, fillParagraph fvs p = Except.ok p := by
    intro p hp2
    refine fillParagraph_unchanged fvs p (fillText_inert fvs (paraText p) ?_)
    intro nv hnv hu
    refine hin (paraText p) ?_ nv hnv hu
    exact List.mem_append_left _
      (List.mem_append_left _ (List.mem_map_of_mem paraText hp2))
  have hs2 : ∀ s ∈ S, fillSection fvs s = Except.ok s := by
    intro s hsin
    have key : ∀ p : Paragraph,
        paraText p ∈ (s.header.getD []).map paraText ++ (s.footer.getD []).map paraText →
        fillParagraph fvs p = Except.ok p := by
      intro p hmem
      refine fillParagraph_unchanged fvs p (fillText_inert fvs (paraText p) ?_)
      intro nv hnv hu
      refine hin (paraText p) ?_ nv hnv hu
      exact List.mem_append_right _
        (mem_concatMapL
          (fun s2 => (s2.header.getD []).map paraText ++ (s2.footer.getD []).map paraText)
          hsin hmem)
    obtain ⟨hd, ft⟩ := s
    cases hd with
    | none =>
      cases ft with
      | none => rfl
      | some fs =>
        show (match mapE (fillParagraph fvs) fs with
          | Except.error e => Except.error e
          | Except.ok fs2 => Except.ok (⟨none, some fs2⟩ : DSection)) = _
        rw [mapE_ok_id (fillParagraph fvs) fs fun p hp3 => key p
          (List.mem_append_right _ (List.mem_map_of_mem paraText hp3))]
    | some hs3 =>
      cases ft with
      | none =>
        show (match mapE (fillParagraph fvs) hs3 with
          | Except.error e => Except.error e
          | Except.ok hs4 => Except.ok (⟨some hs4, none⟩ : DSection)) = _
        rw [mapE_ok_id (fillParagraph fvs) hs3 fun p hp3 => key p
          (List.mem_append_left _ (List.mem_map_of_mem paraText hp3))]
      | some fs =>
        show (match mapE (fillParagraph fvs) hs3 with
          | Except.error e => Except.error e
          | Except.ok hs4 =>
            match mapE (fillParagraph fvs) fs with
            | Except.error e => Except.error e
            | Except.ok fs2 => Except.ok (⟨some hs4, some fs2⟩ : DSection)) = _
        rw [mapE_ok_id (fillParagraph fvs) hs3 fun p hp3 => key p
            (List.mem_append_left _ (List.mem_map_of_mem paraText hp3)),
          mapE_ok_id (fillParagraph fvs) fs fun p hp3 => key p
            (List.mem_append_right _ (List.mem_map_of_mem paraText hp3))]
  show (match mapE (fillParagraph fvs) P with
    | Except.error e => Except.error e
    | Except.ok ps =>
      match mapE (fillTable fvs) ([] : List (List (List Cell))) with
      | Except.error e => Except.error e
      | Except.ok ts =>
        match mapE (fillSection fvs) S with
        | Except.error e => Except.error e
        | Except.ok ss => Except.ok (⟨ps, ts, ss⟩ : Document)) =
    Except.ok (⟨P, [], S⟩ : Document)
  rw [mapE_ok_id (fillParagraph fvs) P hp, mapE_ok_id (fillSection fvs) S hs2]
  rfl

/-- C5 amended witness: filling `"[Policy]"` with
`Policy` -> `PL-42` gives a document on which the second pass is the
identity. -/
theorem fillTemplate_second_pass_inert_witness :
    fillTemplate ⟨[⟨[⟨"PL-42", 0⟩]⟩], [], []⟩ [("Policy", "PL-42")] =
      Except.ok ⟨[⟨[⟨"PL-42", 0⟩]⟩], [], []⟩ :=
  fillTemplate_second_pass_inert ⟨[⟨[⟨"[Policy]", 0⟩]⟩], [], []⟩
    ⟨[⟨[⟨"PL-42", 0⟩]⟩], [], []⟩ [("Policy", "PL-42")]
    (by decide) (by decide) (by decide)

/-- C7 counterexample: for field `"A"` with value `"x\1"` on the span
`"[A] A:"`, compiling the replacement template of the bracket syntax
fails (`\1` with no capture groups is `re.error`), yet the span does
not keep the text it had before the field was attempted: the labelled
blank syntax has already rewritten it to `"[A] A:xA:"`.  Only the
failing syntax is skipped, not the whole field. -/
theorem patternError_not_field_skip_cex :
    parseTemplateF 0 ("x\\1" : String).data.length ("x\\1" : String).data =
      Except.error TErr.reErr ∧
    fillFieldValue "A" "x\\1" "[A] A:" = Except.ok "[A] A:xA:" ∧
    ("[A] A:xA:" : String) ≠ "[A] A:" := by
  decide

/-- C7 amended: when compiling a syntax's replacement template raises
`re.error`, exactly that syntax is skipped for the span: its
substitution leaves the span unchanged, and the remaining syntaxes
and fields still run (the error is not surfaced). -/
theorem patternError_skips_only_syntax (k : PatKind) (name value s : Chars)
    (h : parseTemplateF (ngOf k) (tmplOf k value).length (tmplOf k value) =
      Except.error TErr.reErr) :
    applyPatCaught k name value s = Except.ok s := by
  have hr : applyPatRaw k name value s = Except.error TErr.reErr := by
    show (match parseTemplateF (ngOf k) (tmplOf k value).length (tmplOf k value) with
      | Except.error e => Except.error e
      | Except.ok ch => Except.ok (subScan (tryOf k name) ch s.length s)) = _
    rw [h]
  show (match applyPatRaw k name value s with
    | Except.error TErr.reErr => Except.ok s
    | Except.error TErr.idxErr => Except.error TErr.idxErr
    | Except.ok r => Except.ok r) = Except.ok s
  rw [hr]

/-- C7 amended witness: the bracket syntax with the bad value `"x\1"`
leaves `"[A]"` unchanged instead of aborting. -/
theorem patternError_skips_only_syntax_witness :
    applyPatCaught .bracket ("A" : String).data ("x\\1" : String).data
      ("[A]" : String).data = Except.ok ("[A]" : String).data :=
  patternError_skips_only_syntax .bracket _ _ _ (by decide)

/-- C9 counterexample: the backslash-free value `"42"` is not
inserted verbatim by the labelled-blank syntax: the replacement
template `\142` is parsed by Python as a three-digit octal escape, so
`"A: __"` for field `"A"` becomes `"b"` (`chr 0o142`), which does not
contain `"42"`. -/
theorem value_not_verbatim_cex :
    fillFieldValue "A" "42" "A: __" = Except.ok "b" ∧
    ("42" : String).data.all (fun ch => ch ≠ '\\') = true ∧
    listInfixB ("42" : String).data ("b" : String).data = false := by
  decide

/-- C10 counterexample: with the non-empty, non-`"N/A"` value `"\q"`
(an invalid replacement escape), a span holding two `"[Name]"`
placeholders is returned entirely unchanged - no occurrence at all is
replaced, because every syntax's template fails to compile and is
skipped. -/
theorem replace_all_occurrences_cex :
    fillFieldValue "Name" "\\q" "[Name] [Name]" = Except.ok "[Name] [Name]" ∧
    ("\\q" : String) ≠ "" ∧ ("\\q" : String) ≠ "N/A" ∧
    listInfixB ("[Name]" : String).data ("[Name] [Name]" : String).data = true := by
  decide

/-- C6: the field name is matched as literal text (it passes through
`re.escape`): for every name - including names holding `.`, `*`, `(`,
`)` - the bracket syntax rewrites the span `"[" ++ name ++ "]"` to
exactly the (backslash-free) value, with no matching-syntax error; in
particular `"[Total (USD)]"` with field `Total (USD)` and value `500`
yields `"500"`. -/
theorem literal_name_matching :
    (∀ (name value : Chars), value.all (fun ch => ch ≠ '\\') = true →
      applyPatCaught .bracket name value ('[' :: (name ++ [']'])) = Except.ok value) ∧
    fillFieldValue "Total (USD)" "500" "[Total (USD)]" = Except.ok "500" := by
  constructor
  · intro name value hv
    have hp : parseTemplateF 0 value.length value = Except.ok (value.map Chunk.lit) :=
      parse_lits 0 value hv value.length (le_refl _)
    have hraw := applyPatRaw_parse_ok .bracket name value ('[' :: (name ++ [']']))
      (value.map Chunk.lit) hp
    have hscan := subScan_bracket_match name [] (value.map Chunk.lit)
      ('[' :: (name ++ [']'])).length (le_refl _)
    rw [subScan_nil, List.append_nil, expand_lits] at hscan
    have hscan2 : subScan (tryOf .bracket name) (value.map Chunk.lit)
        ('[' :: (name ++ [']'])).length ('[' :: (name ++ [']'])) = value := hscan
    show (match applyPatRaw PatKind.bracket name value ('[' :: (name ++ [']'])) with
      | Except.error TErr.reErr => Except.ok ('[' :: (name ++ [']']))
      | Except.error TErr.idxErr => Except.error TErr.idxErr
      | Except.ok r => Except.ok r) = Except.ok value
    rw [hraw, hscan2]
  · decide

/-- C6 witness: the documented instance, with the matching-special
characters `(`, `)` in the field name. -/
theorem literal_name_matching_witness :
    applyPatCaught .bracket ("Total (USD)" : String).data ("500" : String).data
      ('[' :: (("Total (USD)" : String).data ++ [']'])) =
      Except.ok ("500" : String).data :=
  literal_name_matching.1 ("Total (USD)" : String).data ("500" : String).data (by decide)

/-- C9 amended: in the labelled syntaxes the replacement template is
`\1` followed by the value, so the value is inserted verbatim (after
the kept group 1) whenever it contains no backslash AND does not
begin with a digit; in the bracket/brace/angle syntaxes, whose
template is the bare value, backslash-freedom alone suffices.  (A
backslash-free value beginning with a digit can be corrupted - see
the counterexample - and a value with backslashes can be transformed,
skipped, or even, as with `"\&"`, still inserted verbatim.) -/
theorem verbatim_insertion (v g0 g1 g2 : Chars)
    (hb : v.all (fun ch => ch ≠ '\\') = true)
    (hd : (v.headD 'x').isDigit = false) :
    parseTemplateF 2 ('\\' :: '1' :: v).length ('\\' :: '1' :: v) =
      Except.ok (Chunk.grp 1 :: v.map Chunk.lit) ∧
    expandRepl g0 g1 g2 (Chunk.grp 1 :: v.map Chunk.lit) = g1 ++ v ∧
    parseTemplateF 0 v.length v = Except.ok (v.map Chunk.lit) ∧
    expandRepl g0 g1 g2 (v.map Chunk.lit) = v := by
  refine ⟨?_, expand_grp1_lits g0 g1 g2 v, parse_lits 0 v hb v.length (le_refl _),
    expand_lits g0 g1 g2 v⟩
  exact parse_grp1 2 (by omega) v hb hd

/-- C9 amended witness: the value `"Alice"` is inserted verbatim
after group 1. -/
theorem verbatim_insertion_witness :
    parseTemplateF 2 ('\\' :: '1' :: ("Alice" : String).data).length
        ('\\' :: '1' :: ("Alice" : String).data) =
      Except.ok (Chunk.grp 1 :: ("Alice" : String).data.map Chunk.lit) ∧
    expandRepl [] ("Name: " : String).data [] (Chunk.grp 1 :: ("Alice" : String).data.map Chunk.lit) =
      ("Name: " : String).data ++ ("Alice" : String).data ∧
    parseTemplateF 0 ("Alice" : String).data.length ("Alice" : String).data =
      Except.ok (("Alice" : String).data.map Chunk.lit) ∧
    expandRepl [] ("Name: " : String).data [] (("Alice" : String).data.map Chunk.lit) =
      ("Alice" : String).data :=
  verbatim_insertion ("Alice" : String).data [] ("Name: " : String).data []
    (by decide) (by decide)

/-- C10 amended: for a backslash-free value, the bracket substitution
replaces every occurrence in the span, not only the first: on a span
holding two bracketed placeholders of the same field (with no stray
`[` around them), both become the value, given that the two labelled
syntaxes do not fire on the span and the brace/angle syntaxes do not
fire on the result. -/
theorem bracket_replaces_all_occurrences (name value a b c : Chars)
    (hv : value.all (fun ch => ch ≠ '\\') = true)
    (ha : a.all (fun ch => ch ≠ '[') = true)
    (hb : b.all (fun ch => ch ≠ '[') = true)
    (hc : c.all (fun ch => ch ≠ '[') = true)
    (h1 : applyPatCaught .colonBlank name value
        (a ++ '[' :: (name ++ ']' :: (b ++ '[' :: (name ++ ']' :: c)))) =
      Except.ok (a ++ '[' :: (name ++ ']' :: (b ++ '[' :: (name ++ ']' :: c)))))
    (h2 : applyPatCaught .underscores name value
        (a ++ '[' :: (name ++ ']' :: (b ++ '[' :: (name ++ ']' :: c)))) =
      Except.ok (a ++ '[' :: (name ++ ']' :: (b ++ '[' :: (name ++ ']' :: c)))))
    (h4 : applyPatCaught .brace name value (a ++ (value ++ (b ++ (value ++ c)))) =
      Except.ok (a ++ (value ++ (b ++ (value ++ c)))))
    (h5 : applyPatCaught .angle name value (a ++ (value ++ (b ++ (value ++ c)))) =
      Except.ok (a ++ (value ++ (b ++ (value ++ c))))) :
    fillFieldChars name value
        (a ++ '[' :: (name ++ ']' :: (b ++ '[' :: (name ++ ']' :: c)))) =
      Except.ok (a ++ (value ++ (b ++ (value ++ c)))) := by
  have hp : parseTemplateF 0 value.length value = Except.ok (value.map Chunk.lit) :=
    parse_lits 0 value hv value.length (le_refl _)
  have hscan : subScan (tryBracket name) (value.map Chunk.lit)
      (a ++ '[' :: (name ++ ']' :: (b ++ '[' :: (name ++ ']' :: c)))).length
      (a ++ '[' :: (name ++ ']' :: (b ++ '[' :: (name ++ ']' :: c)))) =
      a ++ (value ++ (b ++ (value ++ c))) := by
    rw [subScan_bracket_copy name (value.map Chunk.lit) a
        ('[' :: (name ++ ']' :: (b ++ '[' :: (name ++ ']' :: c)))) ha _ (le_refl _),
      subScan_bracket_match name (b ++ '[' :: (name ++ ']' :: c)) (value.map Chunk.lit)
        _ (le_refl _),
      expand_lits,
      subScan_bracket_copy name (value.map Chunk.lit) b ('[' :: (name ++ ']' :: c))
        hb _ (le_refl _),
      subScan_bracket_match name c (value.map Chunk.lit) _ (le_refl _),
      expand_lits,
      subScan_id_of_noMatch (tryBracket name) (value.map Chunk.lit) c
        (scanNoMatch_noBracket name c hc) c.length]
  have h3 : applyPatCaught .bracket name value
      (a ++ '[' :: (name ++ ']' :: (b ++ '[' :: (name ++ ']' :: c)))) =
      Except.ok (a ++ (value ++ (b ++ (value ++ c)))) := by
    have hraw := applyPatRaw_parse_ok .bracket name value
      (a ++ '[' :: (name ++ ']' :: (b ++ '[' :: (name ++ ']' :: c))))
      (value.map Chunk.lit) hp
    have hscan2 : subScan (tryOf .bracket name) (value.map Chunk.lit)
        (a ++ '[' :: (name ++ ']' :: (b ++ '[' :: (name ++ ']' :: c)))).length
        (a ++ '[' :: (name ++ ']' :: (b ++ '[' :: (name ++ ']' :: c)))) =
        a ++ (value ++ (b ++ (value ++ c))) := hscan
    show (match applyPatRaw PatKind.bracket name value
        (a ++ '[' :: (name ++ ']' :: (b ++ '[' :: (name ++ ']' :: c)))) with
      | Except.error TErr.reErr =>
        Except.ok (a ++ '[' :: (name ++ ']' :: (b ++ '[' :: (name ++ ']' :: c))))
      | Except.error TErr.idxErr => Except.error TErr.idxErr
      | Except.ok r => Except.ok r) = Except.ok (a ++ (value ++ (b ++ (value ++ c))))
    rw [hraw, hscan2]
  show foldE (fun acc k => applyPatCaught k name value acc)
    (a ++ '[' :: (name ++ ']' :: (b ++ '[' :: (name ++ ']' :: c)))) patternsOrder =
    Except.ok (a ++ (value ++ (b ++ (value ++ c))))
  simp only [patternsOrder, foldE, h1, h2, h3, h4, h5]

/-- C10 amended witness: both occurrences of `"[Name]"` in
`"A [Name] x [Name] Z"` become `"Bob"`. -/
theorem bracket_replaces_all_occurrences_witness :
    fillFieldChars ("Name" : String).data ("Bob" : String).data
        (("A " : String).data ++ '[' :: (("Name" : String).data ++ ']' ::
          ((" x " : String).data ++ '[' ::
            (("Name" : String).data ++ ']' :: (" Z" : String).data)))) =
      Except.ok (("A " : String).data ++ (("Bob" : String).data ++
        ((" x " : String).data ++ (("Bob" : String).data ++ (" Z" : String).data)))) :=
  bracket_replaces_all_occurrences ("Name" : String).data ("Bob" : String).data
    ("A " : String).data (" x " : String).data (" Z" : String).data
    (by decide) (by decide) (by decide) (by decide)
    (by decide) (by decide) (by decide) (by decide)

end DocFill
